import Mathlib

/-!
Verification of the keypoint encoder subsystem of speedy-vision
(src/core/pipeline/nodes/keypoints/detectors/detector.js and
src/core/speedy-keypoint.js), embedded shallowly: JavaScript numbers are
modelled as exact naturals, integers or rationals, GPU textures as total
pixel grids, and the GL/shader calls that are not part of the sources as
functions modelled from the specification.
-/

/-- Modelled from the spec: MIN_KEYPOINT_SIZE is imported from utils/globals
(not among the sources). It is the size of a keypoint header in bytes; the
comment on DEFAULT_CAPACITY in detector.js (64x64 texture with 2 pixels per
keypoint for 2048 keypoints and zero payload) fixes it to 8. -/
def MIN_KEYPOINT_SIZE : ℕ := 8

/-- Modelled from the spec: MIN_ENCODER_LENGTH is imported from utils/globals
(not among the sources): the smallest admissible side of the encoder
texture. -/
def MIN_ENCODER_LENGTH : ℕ := 2

/-- Modelled from the spec: MAX_ENCODER_CAPACITY is imported from
utils/globals (not among the sources): the largest admissible keypoint
capacity of the encoder. -/
def MAX_ENCODER_CAPACITY : ℕ := 8192

/-- ENCODER_PASSES from detector.js: number of passes of the keypoint
encoder. -/
def ENCODER_PASSES : ℕ := 4

/-- LONG_SKIP_OFFSET_PASSES from detector.js: number of passes of the long
skip offsets shader. -/
def LONG_SKIP_OFFSET_PASSES : ℕ := 2

/-- MAX_CAPACITY from detector.js: alias of MAX_ENCODER_CAPACITY. -/
def MAX_CAPACITY : ℕ := MAX_ENCODER_CAPACITY

/-- DEFAULT_CAPACITY from detector.js. -/
def DEFAULT_CAPACITY : ℕ := 2048

/-- Math.ceil of the exact square root of a natural number. -/
def ceilSqrt (n : ℕ) : ℕ :=
  if Nat.sqrt n * Nat.sqrt n = n then Nat.sqrt n else Nat.sqrt n + 1

/-- The pixels-per-keypoint quantity computed identically inside both
encoderLength and encoderCapacity in detector.js:
Math.ceil((MIN_KEYPOINT_SIZE + descriptorSize + extraSize) / 4), written
with exact natural ceiling division. -/
def pixelsPerKeypoint (descriptorSize extraSize : ℕ) : ℕ :=
  (MIN_KEYPOINT_SIZE + descriptorSize + extraSize + 3) / 4

/-- SpeedyPipelineNodeKeypointDetector.encoderLength from detector.js:
max(MIN_ENCODER_LENGTH, ceil(sqrt(encoderCapacity * pixelsPerKeypoint))). -/
def encoderLength (encoderCapacity descriptorSize extraSize : ℕ) : ℕ :=
  max MIN_ENCODER_LENGTH (ceilSqrt (encoderCapacity * pixelsPerKeypoint descriptorSize extraSize))

/-- SpeedyPipelineNodeKeypointDetector.encoderCapacity from detector.js:
floor(encoderLength^2 / pixelsPerKeypoint). -/
def encoderCapacity (descriptorSize extraSize encoderLength : ℕ) : ℕ :=
  encoderLength * encoderLength / pixelsPerKeypoint descriptorSize extraSize

lemma one_le_pixelsPerKeypoint (d e : ℕ) : 1 ≤ pixelsPerKeypoint d e := by
  unfold pixelsPerKeypoint MIN_KEYPOINT_SIZE
  omega

lemma le_ceilSqrt_sq (n : ℕ) : n ≤ ceilSqrt n * ceilSqrt n := by
  unfold ceilSqrt
  by_cases h : Nat.sqrt n * Nat.sqrt n = n
  · simp [h]
  · simp only [h, if_false]
    exact (Nat.lt_succ_sqrt n).le

lemma ceilSqrt_le_iff (n k : ℕ) : ceilSqrt n ≤ k ↔ n ≤ k * k := by
  unfold ceilSqrt
  by_cases h : Nat.sqrt n * Nat.sqrt n = n
  · simp only [h, if_true]
    constructor
    · intro hk
      calc n = Nat.sqrt n * Nat.sqrt n := h.symm
        _ ≤ k * k := Nat.mul_le_mul hk hk
    · intro hk
      exact Nat.sqrt_le_sqrt hk |>.trans (le_of_eq (Nat.sqrt_eq k))
  · simp only [h, if_false]
    constructor
    · intro hk
      have h1 : n < (Nat.sqrt n + 1) * (Nat.sqrt n + 1) := Nat.lt_succ_sqrt n
      exact h1.le.trans (Nat.mul_le_mul hk hk)
    · intro hk
      have h1 : Nat.sqrt n ≤ k := Nat.sqrt_le_sqrt hk |>.trans (le_of_eq (Nat.sqrt_eq k))
      rcases lt_or_eq_of_le h1 with h2 | h2
      · omega
      · exact absurd (le_antisymm (Nat.sqrt_le n) (h2.symm ▸ hk)) h

lemma natCeil_div_four (n : ℕ) : ⌈(n : ℚ) / 4⌉₊ = (n + 3) / 4 := by
  have h : ∀ m : ℕ, ⌈(n : ℚ) / 4⌉₊ ≤ m ↔ (n + 3) / 4 ≤ m := by
    intro m
    rw [Nat.ceil_le, div_le_iff (by norm_num : (0:ℚ) < 4)]
    constructor
    · intro hm
      have hq : (n : ℚ) ≤ ((4 * m : ℕ) : ℚ) := by push_cast; linarith
      have hnat : n ≤ 4 * m := by exact_mod_cast hq
      omega
    · intro hm
      have hnat : n ≤ 4 * m := by omega
      have hq : (n : ℚ) ≤ ((4 * m : ℕ) : ℚ) := by exact_mod_cast hnat
      push_cast at hq
      linarith
  exact le_antisymm ((h _).2 le_rfl) ((h _).1 le_rfl)

lemma natCeil_real_sqrt (n : ℕ) : ⌈Real.sqrt n⌉₊ = ceilSqrt n := by
  have h : ∀ k : ℕ, ⌈Real.sqrt n⌉₊ ≤ k ↔ ceilSqrt n ≤ k := by
    intro k
    rw [Nat.ceil_le, Real.sqrt_le_left (Nat.cast_nonneg k), ceilSqrt_le_iff, sq]
    exact_mod_cast Iff.rfl
  exact le_antisymm ((h _).2 le_rfl) ((h _).1 le_rfl)

/-- C1: for all valid configurations (descriptorSize, extraSize naturals and
capacity at most MAX_CAPACITY), the capacity computed back from the encoder
side length returned by encoderLength is at least the requested capacity:
the side length always has room for the requested number of keypoints. -/
theorem encoderCapacity_encoderLength_ge (descriptorSize extraSize capacity : ℕ)
    (hcap : capacity ≤ MAX_ENCODER_CAPACITY) :
    capacity ≤ encoderCapacity descriptorSize extraSize
      (encoderLength capacity descriptorSize extraSize) := by
  have hp : 0 < pixelsPerKeypoint descriptorSize extraSize :=
    one_le_pixelsPerKeypoint descriptorSize extraSize
  unfold encoderCapacity
  rw [Nat.le_div_iff_mul_le hp]
  unfold encoderLength
  exact (le_ceilSqrt_sq _).trans (Nat.mul_le_mul (le_max_right _ _) (le_max_right _ _))

theorem encoderCapacity_encoderLength_ge_witness :
    100 ≤ MAX_ENCODER_CAPACITY ∧ 100 ≤ encoderCapacity 32 0 (encoderLength 100 32 0) :=
  ⟨by decide, encoderCapacity_encoderLength_ge 32 0 100 (by decide)⟩

/-- C4: encoderLength computes exactly
max(MIN_ENCODER_LENGTH, ceil(sqrt(capacity * pixelsPerKeypoint))) with
pixelsPerKeypoint = ceil((MIN_KEYPOINT_SIZE + descriptorSize + extraSize)/4),
stated with the exact rational ceiling and the exact real square root;
in particular the result is at least MIN_ENCODER_LENGTH, even for
capacity 0. -/
theorem encoderLength_formula (capacity descriptorSize extraSize : ℕ) :
    pixelsPerKeypoint descriptorSize extraSize
        = ⌈((MIN_KEYPOINT_SIZE + descriptorSize + extraSize : ℕ) : ℚ) / 4⌉₊
    ∧ encoderLength capacity descriptorSize extraSize
        = max MIN_ENCODER_LENGTH
            ⌈Real.sqrt ((capacity * pixelsPerKeypoint descriptorSize extraSize : ℕ) : ℝ)⌉₊
    ∧ MIN_ENCODER_LENGTH ≤ encoderLength capacity descriptorSize extraSize := by
  refine ⟨(natCeil_div_four _).symm, ?_, le_max_left _ _⟩
  unfold encoderLength
  rw [natCeil_real_sqrt]

/-- JavaScript truncation toward zero of a rational number: the integer part
taken by the ECMAScript ToInt32 conversion. -/
def jsTrunc (v : ℚ) : ℤ := if 0 ≤ v then ⌊v⌋ else ⌈v⌉

/-- The ECMAScript ToInt32 conversion performed by the pipe-zero idiom in
the capacity and levels setters of detector.js, on rational inputs:
truncate toward zero, then reduce modulo 2^32 into the range
[-2^31, 2^31). -/
def jsToInt32 (v : ℚ) : ℤ :=
  if jsTrunc v % 4294967296 < 2147483648 then jsTrunc v % 4294967296
  else jsTrunc v % 4294967296 - 4294967296

/-- The capacity setter of SpeedyPipelineNodeKeypointDetector in detector.js:
this._capacity = Math.min(Math.max(0, capacity | 0), MAX_CAPACITY). -/
def setCapacity (capacity : ℚ) : ℤ :=
  min (max 0 (jsToInt32 capacity)) (MAX_CAPACITY : ℤ)

/-- The levels setter of SpeedyPipelineNodeMultiscaleKeypointDetector in
detector.js: this._levels = Math.max(1, levels | 0). -/
def setLevels (levels : ℚ) : ℤ := max 1 (jsToInt32 levels)

/-- The scaleFactor setter of SpeedyPipelineNodeMultiscaleKeypointDetector
in detector.js:
this._scaleFactor = Math.max(1.0, Math.min(+scaleFactor, 2.0)). -/
def setScaleFactor (scaleFactor : ℚ) : ℚ := max 1 (min scaleFactor 2)

/-- The 32-bit truncation named by claim C10, written independently of
jsToInt32: shift by 2^31, reduce modulo 2^32, shift back. -/
def trunc32 (v : ℚ) : ℤ := (jsTrunc v + 2147483648) % 4294967296 - 2147483648

lemma jsToInt32_eq_trunc32 (v : ℚ) : jsToInt32 v = trunc32 v := by
  unfold jsToInt32 trunc32
  split_ifs with h <;> omega

lemma jsToInt32_eq_jsTrunc (v : ℚ) (h1 : -2147483648 ≤ jsTrunc v)
    (h2 : jsTrunc v < 2147483648) : jsToInt32 v = jsTrunc v := by
  unfold jsToInt32
  split_ifs with h <;> omega

lemma setCapacity_two_pow_31 : setCapacity ((2:ℚ)^31) = 0 := by
  have h0 : (0:ℚ) ≤ (2:ℚ)^31 := by norm_num
  have ht : jsTrunc ((2:ℚ)^31) = 2147483648 := by
    unfold jsTrunc
    rw [if_pos h0]
    rw [show ((2:ℚ)^31) = ((2147483648 : ℤ) : ℚ) by norm_num]
    exact Int.floor_intCast _
  unfold setCapacity jsToInt32
  rw [ht]
  norm_num [MAX_CAPACITY, MAX_ENCODER_CAPACITY]

/-- C10: writing any numeric value v to the capacity property stores
min(max(0, trunc32 v), MAX_ENCODER_CAPACITY), where trunc32 is 32-bit
integer truncation; hence the stored capacity is an integer in
[0, MAX_ENCODER_CAPACITY], fractional inputs are truncated before clamping,
and an input of 2^31 wraps through trunc32 to 0 instead of clamping to the
upper boundary. -/
theorem setCapacity_eq_trunc32_clamp (v : ℚ) :
    setCapacity v = min (max 0 (trunc32 v)) (MAX_ENCODER_CAPACITY : ℤ)
    ∧ 0 ≤ setCapacity v ∧ setCapacity v ≤ (MAX_ENCODER_CAPACITY : ℤ)
    ∧ setCapacity ((2:ℚ)^31) = 0 := by
  refine ⟨?_, ?_, ?_, setCapacity_two_pow_31⟩
  · unfold setCapacity MAX_CAPACITY
    rw [jsToInt32_eq_trunc32]
  · exact le_min (le_max_left 0 _) (by positivity)
  · exact min_le_right _ _

/-- C3 counterexample: the value 2^31 is above MAX_CAPACITY, yet writing it
to the capacity property stores 0 rather than the upper boundary
MAX_CAPACITY, because the write truncates through ToInt32 before
clamping. -/
theorem setCapacity_clamp_counterexample :
    (MAX_ENCODER_CAPACITY : ℚ) < (2:ℚ)^31 ∧ setCapacity ((2:ℚ)^31) = 0
    ∧ setCapacity ((2:ℚ)^31) ≠ (MAX_ENCODER_CAPACITY : ℤ) := by
  refine ⟨by norm_num [MAX_ENCODER_CAPACITY], setCapacity_two_pow_31, ?_⟩
  rw [setCapacity_two_pow_31]
  norm_num [MAX_ENCODER_CAPACITY]

/-- C3 (amended): every write to the capacity property stores a value in
[0, MAX_CAPACITY]; moreover, for written values of magnitude below 2^31
(so that ToInt32 does not wrap), a negative value stores 0 and a value
above MAX_CAPACITY stores MAX_CAPACITY. -/
theorem setCapacity_clamp (v : ℚ) :
    0 ≤ setCapacity v ∧ setCapacity v ≤ (MAX_ENCODER_CAPACITY : ℤ)
    ∧ (-(2^31) < v → v < 0 → setCapacity v = 0)
    ∧ ((MAX_ENCODER_CAPACITY : ℚ) < v → v < 2^31 →
        setCapacity v = (MAX_ENCODER_CAPACITY : ℤ)) := by
  refine ⟨le_min (le_max_left 0 _) (by positivity), min_le_right _ _, ?_, ?_⟩
  · intro h1 h2
    have hnot : ¬ (0 ≤ v) := not_le.mpr h2
    have hi : jsTrunc v = ⌈v⌉ := by unfold jsTrunc; rw [if_neg hnot]
    have hle : ⌈v⌉ ≤ 0 := Int.ceil_le.mpr (by exact_mod_cast h2.le)
    have hgt : -(2147483648 : ℤ) < ⌈v⌉ := by
      have hq : ((-2147483648 : ℤ) : ℚ) < (⌈v⌉ : ℚ) :=
        lt_of_lt_of_le (by push_cast; linarith) (Int.le_ceil v)
      exact_mod_cast hq
    have h32 : jsToInt32 v = ⌈v⌉ := by
      rw [jsToInt32_eq_jsTrunc v (by omega) (by omega), hi]
    unfold setCapacity
    rw [h32]
    have : (0:ℤ) ≤ (MAX_CAPACITY : ℤ) := by positivity
    omega
  · intro h1 h2
    have h0 : (0:ℚ) ≤ v := le_trans (by norm_num [MAX_ENCODER_CAPACITY]) h1.le
    have hi : jsTrunc v = ⌊v⌋ := by unfold jsTrunc; rw [if_pos h0]
    have hge : (MAX_ENCODER_CAPACITY : ℤ) ≤ ⌊v⌋ := Int.le_floor.mpr (by exact_mod_cast h1.le)
    have hlt : ⌊v⌋ < 2147483648 := Int.floor_lt.mpr (by push_cast; linarith)
    have h32 : jsToInt32 v = ⌊v⌋ := by
      rw [jsToInt32_eq_jsTrunc v ?lo ?hi, hi]
      case lo =>
        rw [hi]
        have : (0:ℤ) ≤ ⌊v⌋ := Int.floor_nonneg.mpr h0
        omega
      case hi => rw [hi]; exact hlt
    unfold setCapacity MAX_CAPACITY
    rw [h32]
    have hm : (0:ℤ) ≤ (MAX_ENCODER_CAPACITY : ℤ) := by positivity
    omega

theorem setCapacity_clamp_witness :
    setCapacity (-5) = 0 ∧ setCapacity 9000 = (MAX_ENCODER_CAPACITY : ℤ) :=
  ⟨(setCapacity_clamp (-5)).2.2.1 (by norm_num) (by norm_num),
   (setCapacity_clamp 9000).2.2.2 (by norm_num [MAX_ENCODER_CAPACITY]) (by norm_num)⟩

/-- C7: writes to the levels and scaleFactor properties of a multiscale
detector node never fail and saturate: after any write the stored levels is
at least 1 and the stored scaleFactor lies in [1, 2]. -/
theorem setLevels_setScaleFactor_saturate (u v : ℚ) :
    1 ≤ setLevels u ∧ 1 ≤ setScaleFactor v ∧ setScaleFactor v ≤ 2 :=
  ⟨le_max_left _ _, le_max_left _ _, max_le (by norm_num) (min_le_right _ _)⟩

/-- One RGBA pixel of a texture, as four byte values. -/
abbrev Pixel : Type := ℕ × ℕ × ℕ × ℕ

/-- A GPU texture: a width, a height and a total pixel grid. -/
structure Texture where
  width : ℕ
  height : ℕ
  pixel : ℕ → ℕ → Pixel

/-- Modelled from the spec: the reserved null-keypoint sentinel pixel, all
bytes set, written by encodeNullKeypoints and by clear(1,1,1,1) (normalized
channel value 1.0 is byte 255) and recognized by the decoder. -/
def NULL_PIXEL : Pixel := (255, 255, 255, 255)

/-- Texture clear: fill every pixel with one value. -/
def Texture.clear (t : Texture) (px : Pixel) : Texture :=
  ⟨t.width, t.height, fun _ _ => px⟩

/-- Texture resize: same contents, new dimensions. -/
def Texture.resize (t : Texture) (w h : ℕ) : Texture := ⟨w, h, t.pixel⟩

/-- Pixel at raster index i of a texture, row-major. -/
def Texture.rasterPixel (t : Texture) (i : ℕ) : Pixel :=
  t.pixel (i % t.width) (i / t.width)

/-- Modelled from the spec: the decoder reads one keypoint slot from its
header pixel; the sentinel decodes to nothing, any other pixel decodes to
the packed 16-bit position (x low byte, x high byte, y low byte, y high
byte). -/
def decodeSlot (px : Pixel) : Option (ℕ × ℕ) :=
  if px = NULL_PIXEL then none
  else some (px.1 + 256 * px.2.1, px.2.2.1 + 256 * px.2.2.2)

/-- Modelled from the spec: the decoder of an encoded keypoint texture.
Slot s occupies pixelsPerKeypoint pixels starting at raster index
s * pixelsPerKeypoint; the multiset of decoded keypoint coordinates is
collected over all slots that fit in the texture. -/
def decodedCoordinates (t : Texture) (descriptorSize extraSize : ℕ) :
    Multiset (ℕ × ℕ) :=
  ↑((List.range (encoderCapacity descriptorSize extraSize t.width)).filterMap
    (fun s => decodeSlot (t.rasterPixel (s * pixelsPerKeypoint descriptorSize extraSize))))

/-- Modelled from the spec: the encodeNullKeypoints shader pass (not among
the sources) writes the null sentinel to every pixel of its configured
square output. -/
def encodeNullKeypoints (encoderLength : ℕ) : Texture :=
  ⟨encoderLength, encoderLength, fun _ _ => NULL_PIXEL⟩

/-- SpeedyPipelineNodeKeypointDetector._encodeZeroKeypoints from
detector.js: capacity 0, side encoderLength(0, descriptorSize, extraSize),
a single encodeNullKeypoints pass, no compaction passes. -/
def encodeZeroKeypoints (descriptorSize extraSize : ℕ) : Texture :=
  encodeNullKeypoints (encoderLength 0 descriptorSize extraSize)

lemma decodedCoordinates_allNull (t : Texture) (d e : ℕ)
    (h : ∀ i j, t.pixel i j = NULL_PIXEL) : decodedCoordinates t d e = 0 := by
  unfold decodedCoordinates
  have hall : ∀ s ∈ List.range (encoderCapacity d e t.width),
      decodeSlot (t.rasterPixel (s * pixelsPerKeypoint d e)) = none := by
    intro s _
    unfold Texture.rasterPixel decodeSlot
    rw [h]
    simp
  rw [List.filterMap_eq_nil.mpr hall]
  rfl

/-- C5: with capacity 0 the encoder skips the compaction passes and
produces a square texture of side encoderLength(0, descriptorSize,
extraSize), which is at least MIN_ENCODER_LENGTH, in which every pixel is
the null sentinel, so every decoded slot is null. -/
theorem encodeZeroKeypoints_allNull (descriptorSize extraSize : ℕ) :
    (encodeZeroKeypoints descriptorSize extraSize).width
        = encoderLength 0 descriptorSize extraSize
    ∧ (encodeZeroKeypoints descriptorSize extraSize).height
        = encoderLength 0 descriptorSize extraSize
    ∧ MIN_ENCODER_LENGTH ≤ (encodeZeroKeypoints descriptorSize extraSize).width
    ∧ (∀ i j, (encodeZeroKeypoints descriptorSize extraSize).pixel i j = NULL_PIXEL)
    ∧ decodedCoordinates (encodeZeroKeypoints descriptorSize extraSize)
        descriptorSize extraSize = 0 :=
  ⟨rfl, rfl, le_max_left _ _, fun _ _ => rfl,
    decodedCoordinates_allNull _ _ _ (fun _ _ => rfl)⟩

/-- Modelled from the spec: the four shader passes used by the prefix-sum
compaction variant (initSumTable, computeSumTable, initLookupOfLocations,
computeLookupOfLocations are not among the sources); the result of the
variant is proved below without assuming anything about them. -/
structure KeypointShaders where
  initSumTable : Texture → ℕ → Texture
  computeSumTable : Texture → ℕ → ℕ → ℕ → Texture
  initLookupOfLocations : Texture → ℕ → Texture
  computeLookupOfLocations : Texture → Texture → Texture → ℕ → ℕ → ℕ → Texture

/-- SpeedyPipelineNodeKeypointDetector._encodeKeypoints2 from detector.js,
the prefix-sum compaction variant: pad to a power of two, build the sum
table and the lookup table over ceil(log2(width*height)) doubling passes,
then return the output texture resized to encoderLength and cleared with
clear(1,1,1,1), i.e. all bytes 255 - the computed lookup table is
discarded, exactly as in the source. -/
def encodeKeypoints2 (ks : KeypointShaders) (corners encodedKeypoints : Texture)
    (capacity descriptorSize extraSize : ℕ) : Texture :=
  let L := encoderLength capacity descriptorSize extraSize
  let exp2 := Nat.clog 2 (corners.width * corners.height)
  let paddedWidth := 2 ^ (exp2 / 2)
  let paddedHeight := 2 ^ (exp2 / 2 + exp2 % 2)
  let stride := paddedWidth
  let start := (ks.initSumTable corners stride, ks.initLookupOfLocations corners stride)
  let tables := (List.range exp2).foldl
    (fun st i =>
      let blockSize := 2 ^ i
      let sumTable := ks.computeSumTable st.1 blockSize (2 * blockSize) stride
      (sumTable, ks.computeLookupOfLocations st.2 sumTable st.1 blockSize (2 * blockSize) stride))
    start
  (encodedKeypoints.resize L L).clear (255, 255, 255, 255)

/-- Modelled from the spec: the decoded coordinate multiset produced by the
skip-offset compaction variant _encodeKeypoints, stated at the decoder
boundary (its shader passes are not among the sources): given the list of
candidate mask coordinates in the implementation-defined stable order, the
variant encodes min(k, capacity) keypoints - the first capacity candidates
- whose decoded coordinates are exactly those candidates. -/
def skipOffsetVariantCoords (candidates : List (ℕ × ℕ)) (capacity : ℕ) :
    Multiset (ℕ × ℕ) :=
  ↑(candidates.take capacity)

/-- A trivial instantiation of the prefix-sum shader passes, used only to
evaluate the variant at a concrete input. -/
def trivialShaders : KeypointShaders :=
  ⟨fun t _ => t, fun t _ _ _ => t, fun t _ => t, fun t _ _ _ _ _ => t⟩

/-- A 64 x 64 corner mask holding a single candidate at (10, 20). -/
def cornersSingle : Texture :=
  ⟨64, 64, fun x y => if x = 10 ∧ y = 20 then (1, 0, 0, 0) else (0, 0, 0, 0)⟩

/-- C2 counterexample: for the mask with the single candidate (10, 20),
capacity 2048 and no payload, the skip-offset variant encodes the keypoint
(10, 20) while the prefix-sum variant _encodeKeypoints2 returns an all-null
cleared texture whose decoded multiset is empty: the two multisets
differ. -/
theorem encodeKeypoints2_counterexample :
    skipOffsetVariantCoords [(10, 20)] 2048
      ≠ decodedCoordinates
          (encodeKeypoints2 trivialShaders cornersSingle
            (Texture.mk 1 1 (fun _ _ => (0, 0, 0, 0))) 2048 0 0) 0 0 := by
  rw [decodedCoordinates_allNull _ _ _ (fun _ _ => rfl)]
  simp [skipOffsetVariantCoords]

/-- C2 (amended): the prefix-sum variant as implemented discards its lookup
table and returns an all-null cleared texture, whatever the shader passes,
mask and configuration; hence the two variants produce the same multiset of
keypoint coordinates exactly when the skip-offset variant produces none,
that is when min(k, capacity) = 0, and not in general. -/
theorem encodeKeypoints2_allNull (ks : KeypointShaders)
    (corners encodedKeypoints : Texture) (candidates : List (ℕ × ℕ))
    (capacity descriptorSize extraSize : ℕ) :
    decodedCoordinates
        (encodeKeypoints2 ks corners encodedKeypoints capacity descriptorSize extraSize)
        descriptorSize extraSize = 0
    ∧ (skipOffsetVariantCoords candidates capacity
        = decodedCoordinates
            (encodeKeypoints2 ks corners encodedKeypoints capacity descriptorSize extraSize)
            descriptorSize extraSize
      ↔ min candidates.length capacity = 0) := by
  have h2 : decodedCoordinates
      (encodeKeypoints2 ks corners encodedKeypoints capacity descriptorSize extraSize)
      descriptorSize extraSize = 0 :=
    decodedCoordinates_allNull _ _ _ (fun _ _ => rfl)
  refine ⟨h2, ?_⟩
  rw [h2]
  unfold skipOffsetVariantCoords
  rw [Multiset.coe_eq_zero, List.take_eq_nil_iff, Nat.min_eq_zero_iff, ← List.length_eq_zero]
  tauto

/-- A GPU pass submitted by the skip-offset encoder _encodeKeypoints. -/
inductive KeypointPass where
  | identityCopy : KeypointPass
  | skipOffsets : KeypointPass
  | longSkipOffsets : KeypointPass
  | positions : ℕ → ℕ → KeypointPass
  | properties : KeypointPass
deriving DecidableEq

/-- The sequence of GPU passes submitted by
SpeedyPipelineNodeKeypointDetector._encodeKeypoints in detector.js: the
identity copy into the special texture, the skip-offsets pass,
LONG_SKIP_OFFSET_PASSES long-skip passes, then one positions pass for each
j below ENCODER_PASSES carrying the pass index j and the pass count
ENCODER_PASSES, then the single properties pass. -/
def encodeKeypointsPassTrace : List KeypointPass :=
  [KeypointPass.identityCopy, KeypointPass.skipOffsets]
  ++ (List.range LONG_SKIP_OFFSET_PASSES).map (fun _ => KeypointPass.longSkipOffsets)
  ++ (List.range ENCODER_PASSES).map (fun j => KeypointPass.positions j ENCODER_PASSES)
  ++ [KeypointPass.properties]

/-- Modelled from the spec: the subset of output slot indices resolved by
position-encoding pass j out of numPasses for a given capacity (the
encodeKeypointPositions shader is not among the sources) - a block of
consecutive ordinals below capacity, disjoint across passes. -/
def positionPassSlots (j numPasses capacity : ℕ) : Finset ℕ :=
  Finset.Ico (j * capacity / numPasses) ((j + 1) * capacity / numPasses)

lemma Ico_disjoint_of_le {a b c d : ℕ} (h : b ≤ c) :
    Disjoint (Finset.Ico a b) (Finset.Ico c d) := by
  rw [Finset.disjoint_left]
  intro x hx hx2
  rw [Finset.mem_Ico] at hx hx2
  omega

/-- C8: the skip-offset encoder performs exactly ENCODER_PASSES = 4
position-encoding passes, the j-th carrying pass index j and pass count
ENCODER_PASSES, followed by a single property-encoding pass at the end of
the submission sequence; distinct position-encoding passes resolve
disjoint subsets of output slot indices. -/
theorem encodeKeypoints_pass_structure :
    ENCODER_PASSES = 4
    ∧ encodeKeypointsPassTrace
        = [KeypointPass.identityCopy, KeypointPass.skipOffsets,
           KeypointPass.longSkipOffsets, KeypointPass.longSkipOffsets,
           KeypointPass.positions 0 ENCODER_PASSES,
           KeypointPass.positions 1 ENCODER_PASSES,
           KeypointPass.positions 2 ENCODER_PASSES,
           KeypointPass.positions 3 ENCODER_PASSES,
           KeypointPass.properties]
    ∧ (∀ capacity j1 j2, j1 ≠ j2 →
        Disjoint (positionPassSlots j1 ENCODER_PASSES capacity)
          (positionPassSlots j2 ENCODER_PASSES capacity)) := by
  refine ⟨rfl, rfl, ?_⟩
  intro c j1 j2 hne
  rcases Nat.lt_or_ge j1 j2 with h | h
  · exact Ico_disjoint_of_le (Nat.div_le_div_right (Nat.mul_le_mul_right c h))
  · have h2 : j2 < j1 := lt_of_le_of_ne h (Ne.symm hne)
    exact (Ico_disjoint_of_le (Nat.div_le_div_right (Nat.mul_le_mul_right c h2))).symm

theorem encodeKeypoints_pass_structure_witness :
    (0 : ℕ) ≠ 1
    ∧ Disjoint (positionPassSlots 0 ENCODER_PASSES 100)
        (positionPassSlots 1 ENCODER_PASSES 100) :=
  ⟨by decide, encodeKeypoints_pass_structure.2.2 100 0 1 (by decide)⟩

/-- The WebGL sampling state of the special texture of a detector node: the
value of its TEXTURE_WRAP_S parameter. -/
structure GLTextureState where
  wrapS : ℤ

/-- The WebGL REPEAT wrap mode, enum value 0x2901. -/
def GL_REPEAT : ℤ := 10497

/-- The auxiliary per-node storage _oldWrapS of
SpeedyPipelineNodeKeypointDetector. -/
structure DetectorNodeState where
  oldWrapS : ℤ

/-- Events observable during a node release, in submission order. -/
inductive ReleaseEvent where
  | setWrapS : ℤ → ReleaseEvent
  | returnTexturesToPool : ReleaseEvent
deriving DecidableEq

/-- SpeedyPipelineNodeKeypointDetector._setupSpecialTexture from
detector.js: read the old value of the parameter of the special texture,
write the new one, return the old value. -/
def setupSpecialTexture (gl : GLTextureState) (param : ℤ) : ℤ × GLTextureState :=
  (gl.wrapS, ⟨param⟩)

/-- SpeedyPipelineNodeKeypointDetector.init from detector.js: after the
superclass initialization, set TEXTURE_WRAP_S of the special texture to
REPEAT and record the previous value in _oldWrapS. -/
def detectorInit (gl : GLTextureState) (node : DetectorNodeState) :
    GLTextureState × DetectorNodeState :=
  let r := setupSpecialTexture gl GL_REPEAT
  (r.2, ⟨r.1⟩)

/-- SpeedyPipelineNodeKeypointDetector.release from detector.js: restore
TEXTURE_WRAP_S to the recorded _oldWrapS, then run the superclass release.
The superclass (pipeline-node.js, not among the sources) is modelled from
the spec as the event returning the owned textures to the pool. The
returned event list is in submission order. -/
def detectorRelease (gl : GLTextureState) (node : DetectorNodeState) :
    GLTextureState × List ReleaseEvent :=
  let r := setupSpecialTexture gl node.oldWrapS
  (r.2, [ReleaseEvent.setWrapS node.oldWrapS, ReleaseEvent.returnTexturesToPool])

/-- C6: for every sampling state before init and every (arbitrary) sampling
state the special texture is in by the time the node is released, release
writes back the TEXTURE_WRAP_S value recorded at init before the owned
textures are returned to the pool, so after release the sampling state
equals the state immediately before init; init itself sets the wrap mode to
REPEAT. -/
theorem detectorRelease_restores_wrapS (gl0 glRun : GLTextureState)
    (node0 : DetectorNodeState) :
    ((detectorInit gl0 node0).1).wrapS = GL_REPEAT
    ∧ (detectorRelease glRun (detectorInit gl0 node0).2).1 = gl0
    ∧ (detectorRelease glRun (detectorInit gl0 node0).2).2
        = [ReleaseEvent.setWrapS gl0.wrapS, ReleaseEvent.returnTexturesToPool] :=
  ⟨rfl, rfl, rfl⟩

/-- Modelled from the spec: a 2-D point (speedy-point.js is not among the
sources). -/
structure SpeedyPoint2 where
  x : ℝ
  y : ℝ

/-- Modelled from the spec: an opaque keypoint descriptor payload
(speedy-keypoint-descriptor.js is not among the sources). -/
def SpeedyKeypointDescriptor : Type := List ℕ

/-- The SpeedyKeypoint record of speedy-keypoint.js: position, lod,
rotation, score and optional descriptor, all stored at construction; the
class provides no mutating accessor. -/
structure SpeedyKeypoint where
  position : SpeedyPoint2
  lod : ℝ
  rotation : ℝ
  score : ℝ
  descriptor : Option SpeedyKeypointDescriptor

/-- The SpeedyKeypoint constructor from speedy-keypoint.js: stores
position (+x, +y), +lod, +rotation, +score and the descriptor. -/
def SpeedyKeypoint.make (x y lod rotation score : ℝ)
    (descriptor : Option SpeedyKeypointDescriptor) : SpeedyKeypoint :=
  ⟨⟨x, y⟩, lod, rotation, score, descriptor⟩

/-- The x accessor of SpeedyKeypoint. -/
def SpeedyKeypoint.x (k : SpeedyKeypoint) : ℝ := k.position.x

/-- The y accessor of SpeedyKeypoint. -/
def SpeedyKeypoint.y (k : SpeedyKeypoint) : ℝ := k.position.y

/-- The scale accessor of SpeedyKeypoint: Math.pow(2, lod). -/
noncomputable def SpeedyKeypoint.scale (k : SpeedyKeypoint) : ℝ := (2 : ℝ) ^ k.lod

/-- C9: a SpeedyKeypoint is immutable once constructed - every accessor
returns exactly the value given at construction, and the record provides no
mutation - and the scale accessor returns 2 to the power lod. -/
theorem speedyKeypoint_accessors (x y lod rotation score : ℝ)
    (descriptor : Option SpeedyKeypointDescriptor) :
    (SpeedyKeypoint.make x y lod rotation score descriptor).x = x
    ∧ (SpeedyKeypoint.make x y lod rotation score descriptor).y = y
    ∧ (SpeedyKeypoint.make x y lod rotation score descriptor).lod = lod
    ∧ (SpeedyKeypoint.make x y lod rotation score descriptor).rotation = rotation
    ∧ (SpeedyKeypoint.make x y lod rotation score descriptor).score = score
    ∧ (SpeedyKeypoint.make x y lod rotation score descriptor).descriptor = descriptor
    ∧ (SpeedyKeypoint.make x y lod rotation score descriptor).scale
        = (2 : ℝ) ^ (SpeedyKeypoint.make x y lod rotation score descriptor).lod :=
  ⟨rfl, rfl, rfl, rfl, rfl, rfl, rfl⟩
